import Mathlib

/-!
Verification of the xcube-geodb stored-procedure core
(`src/xcube_geodb/sql/geodb.sql`) against its natural-language
specification.

The PL/pgSQL functions are shallowly embedded as Lean functions:

* the `geodb_user_databases` table is a `List DbRow`;
* the PostgreSQL role catalog (`pg_roles` / `pg_has_role(usr, oid,
  'member')`) is a `RoleSys`: a finite list of role names together with a
  boolean membership oracle.  `pg_has_role` with the `member` option is
  transitive, and only holds for roles present in the catalog; theorems
  that need those facts take them as explicit hypotheses;
* dynamic SQL executed with `EXECUTE` is embedded by building the very
  query string the PL/pgSQL code builds; where a function consumes the
  *result* of a dynamically executed query, the database engine is
  abstracted as a function `exec : String → List α` giving the row set of
  the executed inner query;
* an ungrouped aggregate query `SELECT JSON_AGG(src) ... FROM (inner) as
  src` always returns exactly one row — the SQL `NULL` aggregate (here
  `none`) when the inner query yields no rows.  `json_agg` embeds this;
* `RAISE EXCEPTION` is embedded with `Except`: `.error` carries the error
  category of the spec's taxonomy together with the exact message text the
  code formats.
-/

namespace GeoDb

/-- One row of the `geodb_user_databases` table (geodb.sql lines 156-168):
the ownership registry mapping a logical database (namespace) `name` to an
`owner` principal.  The `id` and `iss` columns (a sequence value and an
issuer string that the code always writes as `''`) play no role in any
claim and are omitted.  The table carries a UNIQUE constraint on
`(name, owner)`. -/
structure DbRow where
  name : String
  owner : String
deriving DecidableEq

/-- The PostgreSQL role catalog as seen by `geodb_user_allowed`:
`roles` is the list of role names of `pg_roles`, and `hasRole u g` is
`pg_has_role(u, g, 'member')` — whether principal `u` is a direct or
transitively nested member of role `g`. -/
structure RoleSys where
  roles : List String
  hasRole : String → String → Bool

/-- `anySuffix f s` holds when `f` holds of some suffix of `s`
(including `s` itself and the empty suffix). -/
def anySuffix (f : List Char → Bool) : List Char → Bool
  | [] => f []
  | c :: s => f (c :: s) || anySuffix f s

/-- SQL `LIKE` pattern matching on character lists, pattern first:
`'%'` matches any sequence of characters, `'_'` matches exactly one
character, every other pattern character matches itself.  (Escape
characters are not modelled; no pattern in this development contains a
backslash.) -/
def likeMatch : List Char → List Char → Bool
  | [], s => s.isEmpty
  | '%' :: p, s => anySuffix (fun t => likeMatch p t) s
  | '_' :: _, [] => false
  | '_' :: p, _ :: s2 => likeMatch p s2
  | _ :: _, [] => false
  | c :: p, a :: s2 => (a == c) && likeMatch p s2

/-- `s LIKE pattern` for strings. -/
def sqlLike (s pattern : String) : Bool :=
  likeMatch pattern.data s.data

/-- `listContains hay sub`: `sub` occurs contiguously inside `hay`. -/
def listContains (hay sub : List Char) : Bool :=
  (List.range (hay.length + 1)).any fun i => sub.isPrefixOf (hay.drop i)

/-- `strContains s sub`: `sub` is a contiguous substring of `s`.  Used to
state what an error message does and does not mention. -/
def strContains (s sub : String) : Bool :=
  listContains s.data sub.data

/-- Error taxonomy of spec §7, carrying the exact message text the
PL/pgSQL `RAISE EXCEPTION` formats. -/
inductive GeodbError where
  | permissionDenied (msg : String)
  | alreadyExists (msg : String)
  | emptyResult (msg : String)
  | invalidArgument (msg : String)
deriving DecidableEq

/-- Character allowed in an unquoted PostgreSQL identifier (as far as
`format`'s `%I` is concerned): lowercase letter, digit or underscore. -/
def isPlainIdentChar (c : Char) : Bool :=
  (('a' ≤ c) && (c ≤ 'z')) || (('0' ≤ c) && (c ≤ '9')) || c == '_'

/-- PostgreSQL `format`'s `%I`: emit the identifier as-is when it is a
plain lowercase identifier, otherwise double-quote it, doubling any
embedded double quote.  (Quoting of reserved keywords is not modelled; no
identifier in this development is a keyword.) -/
def quoteIdent (s : String) : String :=
  if s.data.all isPlainIdentChar && !s.isEmpty && !(s.data.headD 'a').isDigit
  then s
  else "\"" ++ ⟨s.data.foldr (fun c acc =>
         if c == '"' then '"' :: '"' :: acc else c :: acc) []⟩ ++ "\""

/-- Ungrouped aggregate `SELECT JSON_AGG(src) ... FROM (inner) as src`:
applied to the row list of the inner query it always produces exactly one
output row — SQL `NULL` (`none`) when the inner query produced no rows,
otherwise the aggregated array of all inner rows. -/
def json_agg {α : Type} (rows : List α) : List (Option (List α)) :=
  [if rows.isEmpty then none else some rows]

/-- The `COUNT(*) ... WHERE collection LIKE name || '_%' AND owner = usr`
check of `geodb_user_allowed` (lines 189-196): some registered namespace
row, owned by `usr`, whose name prefix-matches `collection`. -/
def directAllowed (dbs : List DbRow) (collection usr : String) : Bool :=
  dbs.any fun r => sqlLike collection (r.name ++ "_%") && r.owner == usr

/-- `geodb_user_allowed(collection, usr)` (lines 174-217): returns 1 when
`usr` owns a registered namespace prefix-matching `collection`, or,
recursively, when some role `usr` is a member of (skipping `usr` itself)
is allowed.  The PL/pgSQL recursion is embedded with a `fuel` bound on the
recursion depth (PostgreSQL role membership is acyclic, so a depth at
least 2 suffices once `hasRole` is transitive — see
`geodb_user_allowed_spec`); exhausted fuel yields 0. -/
def geodb_user_allowed (dbs : List DbRow) (rs : RoleSys) :
    Nat → String → String → Int
  | 0, _, _ => 0
  | fuel + 1, collection, usr =>
    if directAllowed dbs collection usr then 1
    else if (rs.roles.filter fun g => rs.hasRole usr g && g != usr).any
              (fun g => geodb_user_allowed dbs rs fuel collection g == 1)
         then 1 else 0

/-- The specification's characterisation of `is_allowed`: either some
registered namespace row `(N, U)` satisfies `collection LIKE N || '_%'`,
or `U` is a (direct or transitively nested) member of some group `G` for
which `is_allowed(collection, G)` holds. -/
inductive AllowedSpec (dbs : List DbRow) (rs : RoleSys) (collection : String) :
    String → Prop where
  | direct (usr : String) :
      directAllowed dbs collection usr = true → AllowedSpec dbs rs collection usr
  | viaGroup (usr g : String) :
      rs.hasRole usr g = true → AllowedSpec dbs rs collection g →
      AllowedSpec dbs rs collection usr

/-- `geodb_create_database(database)` (lines 221-246): raises
`AlreadyExists` when *any* row of the registry has the requested name,
regardless of its owner; otherwise inserts `(database, caller)` (the `iss`
column is written as `''` and omitted here). -/
def geodb_create_database (dbs : List DbRow) (usr database : String) :
    Except GeodbError (List DbRow) :=
  let ct := (dbs.filter fun r => r.name == database).length
  if ct > 0 then
    .error (.alreadyExists ("Database " ++ database ++ " exists already."))
  else
    .ok (dbs ++ [⟨database, usr⟩])

/-- State touched by `geodb_truncate_database`: the ownership registry
rows and the names of the physical collection tables. -/
structure GeoState where
  databases : List DbRow
  tables : List String
deriving DecidableEq

/-- `geodb_truncate_database(database)` (lines 250-266): executes a single
`DELETE FROM geodb_user_databases WHERE name = database AND owner = usr`.
A `DELETE` matching no row is a silent no-op, so the embedding is total
(no `Except`): the function cannot raise, and it touches no physical
table. -/
def geodb_truncate_database (usr : String) (st : GeoState) (database : String) :
    GeoState :=
  { st with
    databases := st.databases.filter fun r => !(r.name == database && r.owner == usr) }

/-- A DDL statement issued by `geodb_create_collection`, recording exactly
the pieces the PL/pgSQL `format` interpolates. -/
inductive DDL where
  | createTable (name : String) (columns : List (String × String))
  | addColumn (table col typ : String)
  | createTrigger (trig table : String)
  | grantAll (table grantee : String)
  | alterOwner (table owner : String)
deriving DecidableEq

/-- The fixed column list of the `CREATE TABLE` in
`geodb_create_collection` (lines 363-368). -/
def fixedColumns (crs : String) : List (String × String) :=
  [("id", "SERIAL PRIMARY KEY"),
   ("created_at", "TIMESTAMP WITH TIME ZONE DEFAULT CURRENT_TIMESTAMP"),
   ("modified_at", "TIMESTAMP WITH TIME ZONE"),
   ("geometry", "geometry(Geometry," ++ crs ++ ") NOT NULL")]

/-- SQL `lower()`: fold every character to lower case (character-level
embedding of `String.toLower`, kept kernel-reducible). -/
def lowerStr (s : String) : String :=
  ⟨s.data.map Char.toLower⟩

/-- `geodb_add_properties(collection, properties)` (lines 270-283): one
`ALTER TABLE ... ADD COLUMN lower(key) value` per JSON entry. -/
def geodb_add_properties (collection : String)
    (properties : List (String × String)) : List DDL :=
  properties.map fun kv => .addColumn collection (lowerStr kv.1) kv.2

/-- `geodb_create_collection(collection, properties, crs)` (lines
345-382): raises `No access for user <usr>.` when
`geodb_user_allowed(collection, usr) = 0`; otherwise creates the table
with the fixed columns, adds the user properties, installs the
`update_<collection>_modtime` trigger, grants to `postgres` and transfers
ownership to the caller.  The emitted DDL statements are returned in
execution order. -/
def geodb_create_collection (dbs : List DbRow) (rs : RoleSys) (fuel : Nat)
    (usr collection : String) (properties : List (String × String))
    (crs : String) : Except GeodbError (List DDL) :=
  if geodb_user_allowed dbs rs fuel collection usr = 0 then
    .error (.permissionDenied ("No access for user " ++ usr ++ "."))
  else
    .ok ([.createTable collection (fixedColumns crs)]
          ++ geodb_add_properties collection properties
          ++ [.createTrigger ("update_" ++ collection ++ "_modtime") collection,
              .grantAll collection "postgres",
              .alterOwner collection usr])

/-- `ALTER TABLE collection RENAME TO new_name` on the table-name list. -/
def renameTables (tables : List String) (collection new_name : String) :
    List String :=
  tables.map fun t => if t = collection then new_name else t

/-- The message of the `RAISE EXCEPTION` in `geodb_rename_collection`
(line 696), with `%` replaced by the caller. -/
def renameDeniedMsg (usr : String) : String :=
  usr ++ " has not access to that table or database. You might have to create the database first."

/-- `geodb_rename_collection(collection, new_name)` (lines 670-698):
checks `geodb_user_allowed(new_name, usr)` — the destination name only —
and renames the physical table and returns `'success'` when it is 1,
otherwise raises naming the caller. -/
def geodb_rename_collection (dbs : List DbRow) (rs : RoleSys) (fuel : Nat)
    (usr : String) (tables : List String) (collection new_name : String) :
    Except GeodbError (String × List String) :=
  if geodb_user_allowed dbs rs fuel new_name usr = 1 then
    .ok ("success", renameTables tables collection new_name)
  else
    .error (.permissionDenied (renameDeniedMsg usr))

/-- The query string built by `geodb_get_pg` (lines 978-998): optional
clauses are appended one after the other; note that the `OFFSET` clause
requires *both* `limit` and `offset` to be non-null (line 996). -/
def geodb_get_pg_qry (collection select : String)
    (whereC group order : Option String) (limit offset : Option Int) : String :=
  let qry := "SELECT " ++ select ++ " FROM " ++ quoteIdent collection ++ " "
  let qry := match whereC with
    | some w => qry ++ "WHERE " ++ w ++ " "
    | none => qry
  let qry := match group with
    | some g => qry ++ "GROUP BY " ++ g ++ " "
    | none => qry
  let qry := match order with
    | some o => qry ++ "ORDER BY " ++ o ++ " "
    | none => qry
  let qry := match limit with
    | some l => qry ++ "LIMIT " ++ toString l ++ "  "
    | none => qry
  match limit, offset with
  | some _, some o => qry ++ "OFFSET " ++ toString o ++ " "
  | _, _ => qry

/-- `geodb_get_pg(collection, select, where, group, order, limit, offset)`
(lines 954-1008): executes `SELECT JSON_AGG(src) as src FROM (qry) as
src`, reads `ROW_COUNT` of that statement, and raises `Empty result` when
it is below 1.  `exec` gives the row set of the inner query `qry`. -/
def geodb_get_pg {α : Type} (exec : String → List α) (collection select : String)
    (whereC group order : Option String) (limit offset : Option Int) :
    Except GeodbError (List (Option (List α))) :=
  let res := json_agg (exec (geodb_get_pg_qry collection select whereC group order limit offset))
  if res.length < 1 then .error (.emptyResult "Empty result") else .ok res

/-- The `CASE comparison_mode` dispatch shared by `geodb_get_by_bbox`
(lines 1035-1045) and `geodb_count_by_bbox` (lines 1159-1169, textually
identical): eight recognised modes, otherwise the CASE falls through to
`RAISE EXCEPTION ... USING ERRCODE = 'data_exception'`, modelled as
`none`. -/
def comparisonModeFunc (m : String) : Option String :=
  if m = "within" then some "ST_Within"
  else if m = "contains" then some "ST_Contains"
  else if m = "intersects" then some "ST_Intersects"
  else if m = "touches" then some "ST_Touches"
  else if m = "overlaps" then some "ST_Overlaps"
  else if m = "crosses" then some "ST_Crosses"
  else if m = "disjoint" then some "ST_Disjoint"
  else if m = "equals" then some "ST_Equals"
  else none

/-- The eight comparison modes accepted by the CASE dispatch. -/
def validComparisonModes : List String :=
  ["within", "contains", "intersects", "touches", "overlaps", "crosses",
   "disjoint", "equals"]

/-- The message of the unrecognised-mode `RAISE EXCEPTION`. -/
def badComparisonModeMsg (m : String) : String :=
  "comparison mode " ++ m ++ " does not exist. Use 'within' | 'contains'"

/-- The `LIMIT`/`OFFSET` fragment built by `geodb_get_by_bbox` (lines
1047-1055): starts empty, appends ` LIMIT <limit>` when `limit > 0` and
` OFFSET <offset>` when `offset > 0` — the two integer parameters use 0
(their declared default) as the "absent" sentinel. -/
def geodb_get_by_bbox_lmt_str (limit offset : Int) : String :=
  let lmt_str := ""
  let lmt_str := if limit > 0 then lmt_str ++ " LIMIT " ++ toString limit else lmt_str
  if offset > 0 then lmt_str ++ " OFFSET " ++ toString offset else lmt_str

/-- The `POLYGON` ring text built from the four bounds (lines 1060-1069).
The four `double precision` bounds enter the query only through their SQL
text rendering, so they are carried here as that text. -/
def bboxRing (minx miny maxx maxy : String) : String :=
  minx ++ " " ++ miny ++ ", " ++ maxx ++ " " ++ miny ++ ", " ++
    maxx ++ " " ++ maxy ++ ", " ++ minx ++ " " ++ maxy ++ ", " ++
    minx ++ " " ++ miny

/-- The inner query of `geodb_get_by_bbox` (lines 1057-1072), i.e. the
`(...) as src` body that `JSON_AGG` aggregates over; whitespace inside the
SQL string literal is normalised to single spaces. -/
def geodb_get_by_bbox_inner (collection whereC op bbox_func : String)
    (bbox_crs : Int) (minx miny maxx maxy lmt_str : String) : String :=
  "SELECT * FROM " ++ quoteIdent collection ++ " WHERE (" ++ whereC ++ ") "
    ++ op ++ " " ++ bbox_func ++ "('SRID=" ++ toString bbox_crs
    ++ ";POLYGON((" ++ bboxRing minx miny maxx maxy ++ "))', geometry) "
    ++ " ORDER BY id " ++ lmt_str

/-- `geodb_get_by_bbox(collection, minx, miny, maxx, maxy,
comparison_mode, bbox_crs, where, op, limit, offset)` (lines 1010-1088):
dispatches the comparison mode (raising before anything is executed on an
unrecognised mode), builds the query, executes
`SELECT JSON_AGG(src) as js FROM (inner) as src`, and raises
`Only <row_ct> rows!` when `ROW_COUNT` of that statement is below 1. -/
def geodb_get_by_bbox {α : Type} (exec : String → List α) (collection : String)
    (minx miny maxx maxy : String) (comparison_mode : String) (bbox_crs : Int)
    (whereC op : String) (limit offset : Int) :
    Except GeodbError (List (Option (List α))) :=
  match comparisonModeFunc comparison_mode with
  | none => .error (.invalidArgument (badComparisonModeMsg comparison_mode))
  | some bbox_func =>
    let res := json_agg (exec (geodb_get_by_bbox_inner collection whereC op
      bbox_func bbox_crs minx miny maxx maxy
      (geodb_get_by_bbox_lmt_str limit offset)))
    if res.length < 1 then
      .error (.emptyResult ("Only " ++ toString res.length ++ " rows!"))
    else .ok res

/-- The inner query of `geodb_count_by_bbox` (lines 1171-1185):
`SELECT COUNT(*) as ct FROM ...` with the same predicate, no ordering and
no pagination. -/
def geodb_count_by_bbox_inner (collection whereC op bbox_func : String)
    (bbox_crs : Int) (minx miny maxx maxy : String) : String :=
  "SELECT COUNT(*) as ct FROM " ++ quoteIdent collection ++ " WHERE ("
    ++ whereC ++ ") " ++ op ++ " " ++ bbox_func ++ "('SRID="
    ++ toString bbox_crs ++ ";POLYGON((" ++ bboxRing minx miny maxx maxy
    ++ "))', geometry) "

/-- `geodb_count_by_bbox(...)` (lines 1137-1200): same CASE dispatch as
`geodb_get_by_bbox`, aggregate wrapper and `ROW_COUNT` check. -/
def geodb_count_by_bbox {α : Type} (exec : String → List α) (collection : String)
    (minx miny maxx maxy : String) (comparison_mode : String) (bbox_crs : Int)
    (whereC op : String) : Except GeodbError (List (Option (List α))) :=
  match comparisonModeFunc comparison_mode with
  | none => .error (.invalidArgument (badComparisonModeMsg comparison_mode))
  | some bbox_func =>
    let res := json_agg (exec (geodb_count_by_bbox_inner collection whereC op
      bbox_func bbox_crs minx miny maxx maxy))
    if res.length < 1 then
      .error (.emptyResult ("Only " ++ toString res.length ++ " rows!"))
    else .ok res

/-- The candidate index name `idx_<property>_<collection_shortened>`
(line 1330 / 1335). -/
def idxNameChars (property cs : List Char) : List Char :=
  "idx_".data ++ property ++ '_' :: cs

/-- The `WHILE LENGTH(idx_name) > 63` loop of `geodb_get_index_name`
(lines 1332-1336), recursing on the shortened collection:
`SUBSTR(collection_shortened, 2, LENGTH(collection_shortened))` drops the
first character.  Once `collection_shortened` is empty, `SUBSTR` leaves it
empty, `idx_name` no longer changes and the loop body repeats forever;
that divergence is embedded as `none`. -/
def geodb_get_index_name_loop (property : List Char) : List Char → Option (List Char)
  | [] =>
    if (idxNameChars property []).length ≤ 63 then some (idxNameChars property [])
    else none
  | c :: rest =>
    if (idxNameChars property (c :: rest)).length ≤ 63 then
      some (idxNameChars property (c :: rest))
    else geodb_get_index_name_loop property rest

/-- `geodb_get_index_name(collection, property)` (lines 1321-1339):
starts from `idx_<property>_<collection>` and shortens the collection
component from the front while the name is longer than 63 characters;
`none` embeds a non-terminating loop. -/
def geodb_get_index_name (collection property : String) : Option String :=
  (geodb_get_index_name_loop property.data collection.data).map fun l => ⟨l⟩

/-- Concrete ownership registry used by witnesses: one namespace `ns`
owned by the group `grp`. -/
def wDbs : List DbRow := [⟨"ns", "grp"⟩]

/-- Concrete role catalog used by witnesses: the user `alice` and the
group `grp`, with `alice` a member of `grp` (and membership closed under
`pg_has_role`'s transitivity). -/
def wRoleSys : RoleSys :=
  ⟨["alice", "grp"], fun a b => (a == "alice" || a == "grp") && b == "grp"⟩

/-- Empty role catalog used by witnesses. -/
def rsEmpty : RoleSys := ⟨[], fun _ _ => false⟩

/- ### Helper lemmas -/

/-- Appending strings concatenates their character data. -/
theorem str_data_append (a b : String) : (a ++ b).data = a.data ++ b.data := rfl

/-- Appending the empty string on the right is the identity. -/
theorem str_append_empty (s : String) : s ++ "" = s :=
  String.ext (by simp [str_data_append])

/-- String concatenation is associative. -/
theorem str_append_assoc (a b c : String) : a ++ b ++ c = a ++ (b ++ c) :=
  String.ext (by simp [str_data_append])

/-- A string contains the middle component of a three-part
concatenation. -/
theorem strContains_append_both (a b c : String) :
    strContains (a ++ b ++ c) b = true := by
  unfold strContains listContains
  refine List.any_eq_true.mpr ⟨a.data.length, List.mem_range.mpr ?_, ?_⟩
  · simp [str_data_append]
    omega
  · rw [show (a ++ b ++ c).data = a.data ++ b.data ++ c.data from rfl,
      List.append_assoc, List.drop_left]
    exact List.isPrefixOf_iff_prefix.mpr (List.prefix_append _ _)

/-- A string contains the left component of a concatenation. -/
theorem strContains_append_left (a b : String) :
    strContains (a ++ b) a = true :=
  strContains_append_both "" a b

/-- Exhausted fuel yields 0, never 1. -/
theorem geodb_user_allowed_zero_fuel (dbs : List DbRow) (rs : RoleSys)
    (c u : String) : geodb_user_allowed dbs rs 0 c u = 0 := rfl

/-- Soundness of the embedded `geodb_user_allowed`, at any fuel: a result
of 1 is explained by the specification's characterisation. -/
theorem geodb_user_allowed_sound (dbs : List DbRow) (rs : RoleSys) :
    ∀ (fuel : Nat) (c u : String),
      geodb_user_allowed dbs rs fuel c u = 1 → AllowedSpec dbs rs c u := by
  intro fuel
  induction fuel with
  | zero => intro c u h; simp [geodb_user_allowed] at h
  | succ n ih =>
    intro c u h
    by_cases hd : directAllowed dbs c u
    · exact AllowedSpec.direct u hd
    · rw [geodb_user_allowed, if_neg hd] at h
      by_cases ha : (rs.roles.filter fun g => rs.hasRole u g && g != u).any
          (fun g => geodb_user_allowed dbs rs n c g == 1) = true
      · rcases List.any_eq_true.mp ha with ⟨g, hg, hrec⟩
        have hmem := List.mem_filter.mp hg
        have hb : rs.hasRole u g = true ∧ (g != u) = true := by
          simpa [Bool.and_eq_true] using hmem.2
        exact AllowedSpec.viaGroup u g hb.1 (ih c g (by simpa using hrec))
      · rw [if_neg ha] at h
        exact absurd h (by decide)

/-- Under transitivity of `pg_has_role`, every derivation of the
specification's recursive characterisation flattens to a direct ownership
row, either of the principal itself or of a single role it is a member
of. -/
theorem allowedSpec_flatten (dbs : List DbRow) (rs : RoleSys)
    (Htrans : ∀ a b c2, rs.hasRole a b = true → rs.hasRole b c2 = true →
      rs.hasRole a c2 = true)
    {c u : String} (h : AllowedSpec dbs rs c u) :
    directAllowed dbs c u = true ∨
      ∃ g, rs.hasRole u g = true ∧ g ≠ u ∧ directAllowed dbs c g = true := by
  induction h with
  | direct usr hd => exact Or.inl hd
  | viaGroup usr g hr _ ih =>
    rcases ih with hd | ⟨h2, hr2, hne2, hd2⟩
    · by_cases hgu : g = usr
      · subst hgu; exact Or.inl hd
      · exact Or.inr ⟨g, hr, hgu, hd⟩
    · have hr3 := Htrans usr g h2 hr hr2
      by_cases hhu : h2 = usr
      · subst hhu; exact Or.inl hd2
      · exact Or.inr ⟨h2, hr3, hhu, hd2⟩

/-- Completeness of the embedded `geodb_user_allowed` at fuel at least 2,
given that `pg_has_role` is transitive and only relates principals to
catalogued roles. -/
theorem geodb_user_allowed_complete (dbs : List DbRow) (rs : RoleSys)
    (Htrans : ∀ a b c2, rs.hasRole a b = true → rs.hasRole b c2 = true →
      rs.hasRole a c2 = true)
    (Hroles : ∀ a b, rs.hasRole a b = true → b ∈ rs.roles)
    {c u : String} (h : AllowedSpec dbs rs c u) :
    ∀ fuel, 2 ≤ fuel → geodb_user_allowed dbs rs fuel c u = 1 := by
  intro fuel hfuel
  obtain ⟨n, rfl⟩ : ∃ n, fuel = n + 2 := ⟨fuel - 2, by omega⟩
  rcases allowedSpec_flatten dbs rs Htrans h with hd | ⟨g, hr, hne, hd⟩
  · simp [geodb_user_allowed, hd]
  · by_cases hdu : directAllowed dbs c u
    · simp [geodb_user_allowed, hdu]
    · have hany : (rs.roles.filter fun g2 => rs.hasRole u g2 && g2 != u).any
          (fun g2 => geodb_user_allowed dbs rs (n + 1) c g2 == 1) = true := by
        refine List.any_eq_true.mpr ⟨g, List.mem_filter.mpr ⟨Hroles u g hr, ?_⟩, ?_⟩
        · simp [hr, hne]
        · simp [geodb_user_allowed, hd]
      rw [geodb_user_allowed, if_neg hdu, if_pos hany]

/- ### Claim theorems -/

/-- Claim C2: `geodb_user_allowed` returns 1 for collection `c` and
principal `u` if and only if either some registered namespace row
`(N, u)` satisfies `c LIKE N || '_%'`, or `u` is a (direct or transitively
nested) member of some group `G` for which the same check holds of `G`
(`AllowedSpec`); and in particular, for every principal `u` that is a
member of a group `grp` and every collection prefix-matching a namespace
owned by `grp`, the function returns 1.  `pg_has_role(_, _, 'member')` is
transitive and only relates principals to catalogued roles; both facts are
hypotheses, as is a recursion-depth budget of at least 2 (all that is
needed once membership is transitively closed). -/
theorem geodb_user_allowed_spec (dbs : List DbRow) (rs : RoleSys) (fuel : Nat)
    (Htrans : ∀ a b c2, rs.hasRole a b = true → rs.hasRole b c2 = true →
      rs.hasRole a c2 = true)
    (Hroles : ∀ a b, rs.hasRole a b = true → b ∈ rs.roles)
    (hfuel : 2 ≤ fuel) :
    (∀ collection usr,
        geodb_user_allowed dbs rs fuel collection usr = 1 ↔
          AllowedSpec dbs rs collection usr)
    ∧ (∀ usr grp ns collection,
        rs.hasRole usr grp = true → (⟨ns, grp⟩ : DbRow) ∈ dbs →
        sqlLike collection (ns ++ "_%") = true →
        geodb_user_allowed dbs rs fuel collection usr = 1) := by
  constructor
  · intro c u
    exact ⟨geodb_user_allowed_sound dbs rs fuel c u,
      fun h => geodb_user_allowed_complete dbs rs Htrans Hroles h fuel hfuel⟩
  · intro usr grp ns collection hr hmem hlike
    have hd : directAllowed dbs collection grp = true :=
      List.any_eq_true.mpr ⟨⟨ns, grp⟩, hmem, by simp [hlike]⟩
    exact geodb_user_allowed_complete dbs rs Htrans Hroles
      (AllowedSpec.viaGroup usr grp hr (AllowedSpec.direct grp hd)) fuel hfuel

/-- Witness for C2: in the concrete catalog `wRoleSys` (user `alice`
member of group `grp`) with registry `wDbs` (namespace `ns` owned by
`grp`), `alice` is allowed on `ns_parcels`. -/
theorem geodb_user_allowed_spec_witness :
    geodb_user_allowed wDbs wRoleSys 2 "ns_parcels" "alice" = 1 := by
  have hT : ∀ a b c2, wRoleSys.hasRole a b = true → wRoleSys.hasRole b c2 = true →
      wRoleSys.hasRole a c2 = true := by
    intro a b c2 h1 h2
    simp only [wRoleSys, Bool.and_eq_true, Bool.or_eq_true, beq_iff_eq] at h1 h2 ⊢
    exact ⟨h1.1, h2.2⟩
  have hR : ∀ a b, wRoleSys.hasRole a b = true → b ∈ wRoleSys.roles := by
    intro a b h
    simp only [wRoleSys, Bool.and_eq_true, beq_iff_eq] at h
    simp [wRoleSys, h.2]
  exact (geodb_user_allowed_spec wDbs wRoleSys 2 hT hR (by norm_num)).2
    "alice" "grp" "ns" "ns_parcels" (by decide) (by decide) (by decide)

/-- Claim C3: `geodb_rename_collection` succeeds — renaming the physical
table and returning `'success'` — exactly when
`geodb_user_allowed(new_name, usr) = 1`; the check is against the
destination name only (the source `collection` does not occur in it), and
on failure the error is a `PermissionDenied` whose message names the
caller, with the table list untouched (the error carries no new state, so
the caller's `tables` stand unrenamed). -/
theorem geodb_rename_collection_spec (dbs : List DbRow) (rs : RoleSys)
    (fuel : Nat) (usr : String) (tables : List String)
    (collection new_name : String) :
    ((∃ tabs, geodb_rename_collection dbs rs fuel usr tables collection new_name
        = .ok ("success", tabs))
      ↔ geodb_user_allowed dbs rs fuel new_name usr = 1)
    ∧ (geodb_user_allowed dbs rs fuel new_name usr = 1 →
        geodb_rename_collection dbs rs fuel usr tables collection new_name
          = .ok ("success", renameTables tables collection new_name))
    ∧ (geodb_user_allowed dbs rs fuel new_name usr ≠ 1 →
        geodb_rename_collection dbs rs fuel usr tables collection new_name
          = .error (.permissionDenied (renameDeniedMsg usr))
        ∧ strContains (renameDeniedMsg usr) usr = true) := by
  by_cases ha : geodb_user_allowed dbs rs fuel new_name usr = 1
  · refine ⟨⟨fun _ => ha, fun _ => ?_⟩, fun _ => ?_, fun hn => absurd ha hn⟩
    · exact ⟨renameTables tables collection new_name,
        by rw [geodb_rename_collection, if_pos ha]⟩
    · rw [geodb_rename_collection, if_pos ha]
  · refine ⟨⟨fun ⟨tabs, h⟩ => ?_, fun h => absurd h ha⟩,
      fun h => absurd h ha, fun _ => ⟨by rw [geodb_rename_collection, if_neg ha], ?_⟩⟩
    · rw [geodb_rename_collection, if_neg ha] at h
      exact absurd h (by simp)
    · exact strContains_append_left usr
        " has not access to that table or database. You might have to create the database first."

/-- Witness for C3: with the `wDbs`/`wRoleSys` catalog, `alice` can rename
any table to `ns_new` (she is a member of `grp`, which owns `ns`), and
`bob` cannot. -/
theorem geodb_rename_collection_spec_witness :
    geodb_rename_collection wDbs wRoleSys 2 "alice" ["old_tab"] "old_tab" "ns_new"
      = .ok ("success", ["ns_new"])
    ∧ geodb_rename_collection wDbs wRoleSys 2 "bob" ["old_tab"] "old_tab" "ns_new"
      = .error (.permissionDenied (renameDeniedMsg "bob")) := by
  constructor
  · have h := (geodb_rename_collection_spec wDbs wRoleSys 2 "alice" ["old_tab"]
      "old_tab" "ns_new").2.1 (by decide)
    simpa [renameTables] using h
  · exact ((geodb_rename_collection_spec wDbs wRoleSys 2 "bob" ["old_tab"]
      "old_tab" "ns_new").2.2 (by decide)).1

/-- The composed candidate name has length `5 + |property| + |cs|`. -/
theorem idxNameChars_length (p cs : List Char) :
    (idxNameChars p cs).length = 5 + p.length + cs.length := by
  have h4 : ("idx_".data).length = 4 := rfl
  simp [idxNameChars, List.length_append, h4]
  omega

/-- When the property component alone leaves room inside the 63-character
ceiling, the shortening loop terminates with a name within the ceiling,
whatever the (remaining) collection component is. -/
theorem geodb_get_index_name_loop_some (p : List Char) (hp : p.length ≤ 58) :
    ∀ cs, ∃ l, geodb_get_index_name_loop p cs = some l ∧ l.length ≤ 63 := by
  intro cs
  induction cs with
  | nil =>
    have hlen : (idxNameChars p []).length ≤ 63 := by
      rw [idxNameChars_length, List.length_nil]; omega
    exact ⟨idxNameChars p [], by simp [geodb_get_index_name_loop, hlen], hlen⟩
  | cons c rest ih =>
    by_cases hlen : (idxNameChars p (c :: rest)).length ≤ 63
    · exact ⟨idxNameChars p (c :: rest),
        by simp [geodb_get_index_name_loop, hlen], hlen⟩
    · rcases ih with ⟨l, hl, hb⟩
      exact ⟨l, by simp [geodb_get_index_name_loop, hlen, hl], hb⟩

/-- Claim C4 counterexample: for a 59-character property, already
`idx_<property>_` is 64 characters long, so even the empty collection
component is too long; `SUBSTR` then leaves the empty component unchanged
and the WHILE loop of `geodb_get_index_name` never terminates (embedded as
`none`) — the function neither terminates nor returns a name of at most 63
characters, contradicting the claim's "for all (collection, property)
pairs". -/
theorem geodb_get_index_name_cex :
    geodb_get_index_name "c"
      "ppppppppppppppppppppppppppppppppppppppppppppppppppppppppppp" = none := rfl

/-- Claim C4 (amended): for every pair whose property component has at
most 58 characters, `geodb_get_index_name` terminates and returns a name
of at most 63 characters (determinism is immediate, the embedding being a
pure function of its arguments); for longer properties the WHILE loop
diverges. -/
theorem geodb_get_index_name_amended (collection property : String)
    (h : property.length ≤ 58) :
    ∃ name, geodb_get_index_name collection property = some name
      ∧ name.length ≤ 63 := by
  obtain ⟨l, hl, hb⟩ :=
    geodb_get_index_name_loop_some property.data (by exact h) collection.data
  exact ⟨⟨l⟩, by simp [geodb_get_index_name, hl], by exact hb⟩

/-- Witness for C4 (amended): `idx_area_mycollection` fits. -/
theorem geodb_get_index_name_amended_witness :
    ("area" : String).length ≤ 58
    ∧ ∃ name, geodb_get_index_name "mycollection" "area" = some name
        ∧ name.length ≤ 63 :=
  ⟨by decide, geodb_get_index_name_amended "mycollection" "area" (by decide)⟩

/-- Claim C5 (amended): `geodb_create_collection` fails exactly when
`geodb_user_allowed(collection, usr) = 0`, with a `PermissionDenied`
whose message names the acting principal — but not the target collection
name — and in that case emits no DDL; when the check passes it creates the
table with the fixed columns, adds the user properties (keys folded to
lower case), installs the modification trigger and transfers ownership to
the caller, in that order. -/
theorem geodb_create_collection_spec (dbs : List DbRow) (rs : RoleSys)
    (fuel : Nat) (usr collection : String)
    (properties : List (String × String)) (crs : String) :
    ((∃ e, geodb_create_collection dbs rs fuel usr collection properties crs
        = .error e)
      ↔ geodb_user_allowed dbs rs fuel collection usr = 0)
    ∧ (geodb_user_allowed dbs rs fuel collection usr = 0 →
        geodb_create_collection dbs rs fuel usr collection properties crs
          = .error (.permissionDenied ("No access for user " ++ usr ++ "."))
        ∧ strContains ("No access for user " ++ usr ++ ".") usr = true)
    ∧ (geodb_user_allowed dbs rs fuel collection usr ≠ 0 →
        geodb_create_collection dbs rs fuel usr collection properties crs
          = .ok ([.createTable collection (fixedColumns crs)]
              ++ geodb_add_properties collection properties
              ++ [.createTrigger ("update_" ++ collection ++ "_modtime") collection,
                  .grantAll collection "postgres",
                  .alterOwner collection usr])) := by
  by_cases ha : geodb_user_allowed dbs rs fuel collection usr = 0
  · exact ⟨⟨fun _ => ha, fun _ => ⟨_, by rw [geodb_create_collection, if_pos ha]⟩⟩,
      fun _ => ⟨by rw [geodb_create_collection, if_pos ha],
        strContains_append_both "No access for user " usr "."⟩,
      fun hn => absurd ha hn⟩
  · refine ⟨⟨fun he => ?_, fun hh => absurd hh ha⟩, fun hh => absurd hh ha,
      fun _ => by rw [geodb_create_collection, if_neg ha]⟩
    rcases he with ⟨e, he⟩
    rw [geodb_create_collection, if_neg ha] at he
    exact absurd he (by simp)

/-- Claim C5 counterexample: for caller `bob` and target `alice_t` the
error message is `No access for user bob.` — it names the principal but
does not include the target name, contradicting the claim's "includes
both the acting principal and the target name". -/
theorem geodb_create_collection_cex :
    geodb_create_collection [] rsEmpty 2 "bob" "alice_t" [] "4326"
      = .error (.permissionDenied "No access for user bob.")
    ∧ strContains "No access for user bob." "alice_t" = false
    ∧ strContains "No access for user bob." "bob" = true :=
  ⟨rfl, by decide, by decide⟩

/-- Witness for C5 (amended): `alice` (member of `grp`, owner of `ns`)
creates `ns_parcels` with one property; the property key `Area` is folded
to `area`. -/
theorem geodb_create_collection_spec_witness :
    geodb_create_collection wDbs wRoleSys 2 "alice" "ns_parcels"
        [("Area", "float")] "4326"
      = .ok [.createTable "ns_parcels" (fixedColumns "4326"),
             .addColumn "ns_parcels" "area" "float",
             .createTrigger "update_ns_parcels_modtime" "ns_parcels",
             .grantAll "ns_parcels" "postgres",
             .alterOwner "ns_parcels" "alice"] := by
  rw [(geodb_create_collection_spec wDbs wRoleSys 2 "alice" "ns_parcels"
      [("Area", "float")] "4326").2.2 (by decide)]
  exact congrArg Except.ok (by decide)

/-- Claim C6: `geodb_create_database` fails with `AlreadyExists` whenever
any registry row carries the requested name, regardless of that row's
owner; when no row carries the name it inserts `(name, caller)` and
succeeds. -/
theorem geodb_create_database_spec (dbs : List DbRow) (usr database : String) :
    ((∃ r ∈ dbs, r.name = database) →
        geodb_create_database dbs usr database
          = .error (.alreadyExists ("Database " ++ database ++ " exists already.")))
    ∧ ((∀ r ∈ dbs, r.name ≠ database) →
        geodb_create_database dbs usr database = .ok (dbs ++ [⟨database, usr⟩]))
    ∧ ((∃ e, geodb_create_database dbs usr database = .error e)
        ↔ ∃ r ∈ dbs, r.name = database) := by
  have hiff : 0 < (dbs.filter fun r => r.name == database).length
      ↔ ∃ r ∈ dbs, r.name = database := by
    rw [List.length_pos]
    constructor
    · intro hne
      rcases List.exists_mem_of_ne_nil _ hne with ⟨r, hr⟩
      have hm := List.mem_filter.mp hr
      exact ⟨r, hm.1, by simpa using hm.2⟩
    · rintro ⟨r, hr, hname⟩ hnil
      have := List.filter_eq_nil_iff.mp hnil r hr
      simp [hname] at this
  by_cases hex : ∃ r ∈ dbs, r.name = database
  · have hct : 0 < (dbs.filter fun r => r.name == database).length := hiff.mpr hex
    have herr : geodb_create_database dbs usr database
        = .error (.alreadyExists ("Database " ++ database ++ " exists already.")) := by
      simp [geodb_create_database, hct]
    exact ⟨fun _ => herr,
      fun hall => by
        rcases hex with ⟨r, hr, hn⟩
        exact absurd hn (hall r hr),
      fun _ => hex, fun _ => ⟨_, herr⟩⟩
  · have hct : ¬((dbs.filter fun r => r.name == database).length > 0) :=
      fun hc => hex (hiff.mp hc)
    have hok : geodb_create_database dbs usr database
        = .ok (dbs ++ [⟨database, usr⟩]) := by
      simp [geodb_create_database, hct]
    refine ⟨fun hx => absurd hx hex, fun _ => hok,
      fun he => ?_, fun hx => absurd hx hex⟩
    rcases he with ⟨e, he⟩
    rw [hok] at he
    exact absurd he (by simp)

/-- Witness for C6: creating `ns` fails although the caller `bob` is not
its owner (`grp` is) — the uniqueness check is owner-agnostic — while a
fresh name succeeds and records `(bobdb, bob)`. -/
theorem geodb_create_database_spec_witness :
    geodb_create_database wDbs "bob" "ns"
      = .error (.alreadyExists "Database ns exists already.")
    ∧ geodb_create_database wDbs "bob" "bobdb"
      = .ok (wDbs ++ [⟨"bobdb", "bob"⟩]) := by
  constructor
  · exact (geodb_create_database_spec wDbs "bob" "ns").1
      ⟨⟨"ns", "grp"⟩, by decide, rfl⟩
  · exact (geodb_create_database_spec wDbs "bob" "bobdb").2.1 (by decide)

/-- An unrecognised comparison mode falls through the CASE dispatch. -/
theorem comparisonModeFunc_eq_none {m : String}
    (hm : m ∉ validComparisonModes) : comparisonModeFunc m = none := by
  simp only [validComparisonModes, List.mem_cons, List.mem_singleton,
    not_or] at hm
  obtain ⟨h1, h2, h3, h4, h5, h6, h7, h8, -⟩ := hm
  simp [comparisonModeFunc, h1, h2, h3, h4, h5, h6, h7, h8]

/-- Claim C7: in `geodb_get_by_bbox` and `geodb_count_by_bbox` the eight
comparison modes dispatch to their spatial operators, and any other mode
raises `InvalidArgument` before any query is executed — the error is the
same for every database engine `exec`, which is never consulted — with no
silent fallback to a default operator. -/
theorem comparison_mode_spec :
    (comparisonModeFunc "within" = some "ST_Within"
      ∧ comparisonModeFunc "contains" = some "ST_Contains"
      ∧ comparisonModeFunc "intersects" = some "ST_Intersects"
      ∧ comparisonModeFunc "touches" = some "ST_Touches"
      ∧ comparisonModeFunc "overlaps" = some "ST_Overlaps"
      ∧ comparisonModeFunc "crosses" = some "ST_Crosses"
      ∧ comparisonModeFunc "disjoint" = some "ST_Disjoint"
      ∧ comparisonModeFunc "equals" = some "ST_Equals")
    ∧ (∀ m, m ∉ validComparisonModes → comparisonModeFunc m = none)
    ∧ (∀ (exec : String → List Unit) collection minx miny maxx maxy m bbox_crs
          whereC op limit offset, m ∉ validComparisonModes →
        geodb_get_by_bbox exec collection minx miny maxx maxy m bbox_crs
            whereC op limit offset
          = .error (.invalidArgument (badComparisonModeMsg m)))
    ∧ (∀ (exec : String → List Unit) collection minx miny maxx maxy m bbox_crs
          whereC op, m ∉ validComparisonModes →
        geodb_count_by_bbox exec collection minx miny maxx maxy m bbox_crs
            whereC op
          = .error (.invalidArgument (badComparisonModeMsg m))) := by
  refine ⟨⟨rfl, rfl, rfl, rfl, rfl, rfl, rfl, rfl⟩,
    fun m hm => comparisonModeFunc_eq_none hm, ?_, ?_⟩
  · intro exec collection minx miny maxx maxy m bbox_crs whereC op limit offset hm
    simp [geodb_get_by_bbox, comparisonModeFunc_eq_none hm]
  · intro exec collection minx miny maxx maxy m bbox_crs whereC op hm
    simp [geodb_count_by_bbox, comparisonModeFunc_eq_none hm]

/-- Witness for C7: mode `bogus` raises `InvalidArgument` in both
functions, for a concrete engine. -/
theorem comparison_mode_spec_witness :
    comparisonModeFunc "bogus" = none
    ∧ geodb_get_by_bbox (fun _ => ([()] : List Unit)) "t" "0" "0" "1" "1"
        "bogus" 4326 "id > 0" "AND" 0 0
      = .error (.invalidArgument (badComparisonModeMsg "bogus"))
    ∧ geodb_count_by_bbox (fun _ => ([()] : List Unit)) "t" "0" "0" "1" "1"
        "bogus" 4326 "id > 0" "AND"
      = .error (.invalidArgument (badComparisonModeMsg "bogus")) := by
  have h := comparison_mode_spec
  exact ⟨h.2.1 "bogus" (by decide),
    h.2.2.1 _ "t" "0" "0" "1" "1" "bogus" 4326 "id > 0" "AND" 0 0 (by decide),
    h.2.2.2 _ "t" "0" "0" "1" "1" "bogus" 4326 "id > 0" "AND" (by decide)⟩

/-- Claim C8: `geodb_truncate_database` deletes exactly the registry rows
`(database, caller)` — a row survives iff it is not that pair — never
raises (the embedding is total, a `DELETE` matching nothing being a silent
no-op), and leaves every physical collection table untouched; when the
caller owns no row of that name the whole state is unchanged. -/
theorem geodb_truncate_database_spec (usr : String) (st : GeoState)
    (database : String) :
    (geodb_truncate_database usr st database).tables = st.tables
    ∧ (∀ r, r ∈ (geodb_truncate_database usr st database).databases ↔
        r ∈ st.databases ∧ ¬(r.name = database ∧ r.owner = usr))
    ∧ ((∀ r ∈ st.databases, ¬(r.name = database ∧ r.owner = usr)) →
        geodb_truncate_database usr st database = st) := by
  refine ⟨rfl, ?_, ?_⟩
  · intro r
    simp only [geodb_truncate_database, List.mem_filter, Bool.not_eq_true',
      Bool.and_eq_true, beq_iff_eq, not_and]
    constructor
    · rintro ⟨hmem, hb⟩
      refine ⟨hmem, fun hname howner => ?_⟩
      simp [hname, howner] at hb
    · rintro ⟨hmem, hni⟩
      refine ⟨hmem, ?_⟩
      by_cases hname : r.name = database
      · simp [hname, hni hname]
      · simp [hname]
  · intro hall
    have hfix : st.databases.filter
        (fun r => !(r.name == database && r.owner == usr)) = st.databases := by
      refine List.filter_eq_self.mpr fun r hr => ?_
      have h2 := hall r hr
      by_cases hname : r.name = database
      · have ho : ¬r.owner = usr := fun ho => h2 ⟨hname, ho⟩
        simp [hname, ho]
      · simp [hname]
    simp only [geodb_truncate_database]
    rw [hfix]

/-- Witness for C8: truncating `ns` as `bob` (not its owner) changes
nothing; truncating as `grp` removes only the bookkeeping row and keeps
the physical table list. -/
theorem geodb_truncate_database_spec_witness :
    geodb_truncate_database "bob" ⟨wDbs, ["ns_parcels"]⟩ "ns"
      = ⟨wDbs, ["ns_parcels"]⟩
    ∧ (geodb_truncate_database "grp" ⟨wDbs, ["ns_parcels"]⟩ "ns").tables
      = ["ns_parcels"] := by
  constructor
  · exact (geodb_truncate_database_spec "bob" ⟨wDbs, ["ns_parcels"]⟩ "ns").2.2
      (by decide)
  · exact (geodb_truncate_database_spec "grp" ⟨wDbs, ["ns_parcels"]⟩ "ns").1

/-- Claim C9 counterexample: a call of `geodb_get_pg` providing
`offset = 10` but no `limit` builds exactly the same query as the call
providing neither — the `OFFSET` clause is dropped, contradicting the
claim's "for every call that provides a non-null offset, an OFFSET clause
is applied ... independently of whether limit is also provided". -/
theorem geodb_get_pg_qry_cex :
    geodb_get_pg_qry "mytable" "*" none none none none (some 10)
      = geodb_get_pg_qry "mytable" "*" none none none none none
    ∧ strContains (geodb_get_pg_qry "mytable" "*" none none none none (some 10))
        "OFFSET" = false :=
  ⟨rfl, by decide⟩

/-- Claim C9 (amended): `geodb_get_pg` appends the WHERE, GROUP BY, ORDER
BY and LIMIT clauses when and only when the corresponding argument is
provided, but the OFFSET clause is appended when and only when *both*
`limit` and `offset` are provided (line 996 guards the append with
`"limit" IS NOT NULL AND "offset" IS NOT NULL`); an offset without a limit
is silently dropped.  The closed form below makes each clause's presence
condition explicit. -/
theorem geodb_get_pg_qry_clauses (collection select : String)
    (whereC group order : Option String) (limit offset : Option Int) :
    geodb_get_pg_qry collection select whereC group order limit offset
      = "SELECT " ++ select ++ " FROM " ++ quoteIdent collection ++ " "
        ++ (match whereC with | some w => "WHERE " ++ w ++ " " | none => "")
        ++ (match group with | some g => "GROUP BY " ++ g ++ " " | none => "")
        ++ (match order with | some o => "ORDER BY " ++ o ++ " " | none => "")
        ++ (match limit with | some l => "LIMIT " ++ toString l ++ "  " | none => "")
        ++ (match limit, offset with
            | some _, some o => "OFFSET " ++ toString o ++ " "
            | _, _ => "") := by
  cases whereC <;> cases group <;> cases order <;> cases limit <;> cases offset <;>
    (simp only [geodb_get_pg_qry, str_append_empty, str_append_assoc]; try rfl)

/-- Claim C10: in `geodb_get_by_bbox` the integers `limit` and `offset`
use 0 as the "absent" sentinel: the fragment appended to the generated
query carries a LIMIT part iff `limit > 0` and an OFFSET part iff
`offset > 0` (independently of each other); with `limit = 0` (the declared
default) there is no LIMIT clause at all, and any non-positive value
behaves exactly as if omitted.  The fragment is appended verbatim at the
tail of the inner query. -/
theorem geodb_get_by_bbox_lmt_spec (limit offset : Int) :
    geodb_get_by_bbox_lmt_str limit offset
      = (if limit > 0 then " LIMIT " ++ toString limit else "")
        ++ (if offset > 0 then " OFFSET " ++ toString offset else "")
    ∧ (limit ≤ 0 →
        geodb_get_by_bbox_lmt_str limit offset
          = geodb_get_by_bbox_lmt_str 0 offset)
    ∧ (offset ≤ 0 →
        geodb_get_by_bbox_lmt_str limit offset
          = geodb_get_by_bbox_lmt_str limit 0)
    ∧ geodb_get_by_bbox_lmt_str 0 offset
      = (if offset > 0 then " OFFSET " ++ toString offset else "")
    ∧ (∀ collection whereC op bbox_func bbox_crs minx miny maxx maxy lmt,
        geodb_get_by_bbox_inner collection whereC op bbox_func bbox_crs
            minx miny maxx maxy lmt
          = geodb_get_by_bbox_inner collection whereC op bbox_func bbox_crs
              minx miny maxx maxy "" ++ lmt) := by
  refine ⟨?_, ?_, ?_, ?_, ?_⟩
  · by_cases hl : limit > 0 <;> by_cases ho : offset > 0 <;>
      simp [geodb_get_by_bbox_lmt_str, hl, ho, str_append_empty, str_append_assoc]
  · intro h
    have hl : ¬(limit > 0) := by omega
    simp [geodb_get_by_bbox_lmt_str, hl]
  · intro h
    have ho : ¬(offset > 0) := by omega
    simp [geodb_get_by_bbox_lmt_str, ho]
  · by_cases ho : offset > 0 <;>
      simp [geodb_get_by_bbox_lmt_str, ho]
  · intro collection whereC op bbox_func bbox_crs minx miny maxx maxy lmt
    simp [geodb_get_by_bbox_inner, str_append_empty, str_append_assoc]

/-- Witness for C10: `limit = -3` behaves as `limit = 0`, the fragment for
`(0, 5)` is a bare OFFSET, and for `(0, 0)` it is empty. -/
theorem geodb_get_by_bbox_lmt_spec_witness :
    geodb_get_by_bbox_lmt_str (-3) 5 = geodb_get_by_bbox_lmt_str 0 5
    ∧ geodb_get_by_bbox_lmt_str 0 5 = " OFFSET 5"
    ∧ geodb_get_by_bbox_lmt_str 0 0 = "" := by
  refine ⟨(geodb_get_by_bbox_lmt_spec (-3) 5).2.1 (by norm_num), rfl, rfl⟩

/-- Claim C1 (code bug): whenever the inner query of `geodb_get_pg` or
`geodb_get_by_bbox` matches zero rows, the executed statement
`SELECT JSON_AGG(src) ... FROM (inner) as src` still returns exactly one
row (with a NULL aggregate), so `ROW_COUNT` is 1, the `row_ct < 1` guard
never fires, and the call returns a successful single-row result with a
null aggregate instead of raising `EmptyResult`; indeed `geodb_get_pg`
can never raise at all. -/
theorem filter_zero_rows_returns_null_aggregate :
    (∀ (exec : String → List Unit) collection select whereC group order
        limit offset,
      exec (geodb_get_pg_qry collection select whereC group order limit offset)
          = [] →
      geodb_get_pg exec collection select whereC group order limit offset
        = .ok [none])
    ∧ (∀ (exec : String → List Unit) collection minx miny maxx maxy bbox_crs
        whereC op limit offset,
      exec (geodb_get_by_bbox_inner collection whereC op "ST_Within" bbox_crs
          minx miny maxx maxy (geodb_get_by_bbox_lmt_str limit offset)) = [] →
      geodb_get_by_bbox exec collection minx miny maxx maxy "within" bbox_crs
          whereC op limit offset
        = .ok [none])
    ∧ (∀ (exec : String → List Unit) collection select whereC group order
        limit offset e,
      geodb_get_pg exec collection select whereC group order limit offset
        ≠ .error e) := by
  refine ⟨?_, ?_, ?_⟩
  · intro exec collection select whereC group order limit offset h
    simp [geodb_get_pg, json_agg, h]
  · intro exec collection minx miny maxx maxy bbox_crs whereC op limit offset h
    simp [geodb_get_by_bbox, comparisonModeFunc, json_agg, h]
  · intro exec collection select whereC group order limit offset e
    simp [geodb_get_pg, json_agg]

/-- Witness for C1: a concrete engine on which the inner query matches
zero rows — both calls succeed with a single null-aggregate row. -/
theorem filter_zero_rows_witness :
    geodb_get_pg (fun _ => ([] : List Unit)) "t" "*" none none none none none
      = .ok [none]
    ∧ geodb_get_by_bbox (fun _ => ([] : List Unit)) "t" "0" "0" "1" "1"
        "within" 4326 "id > 0" "AND" 0 0
      = .ok [none] :=
  ⟨filter_zero_rows_returns_null_aggregate.1 _ "t" "*" none none none none none
      rfl,
   filter_zero_rows_returns_null_aggregate.2.1 _ "t" "0" "0" "1" "1" 4326
      "id > 0" "AND" 0 0 rfl⟩

end GeoDb
